import Mathlib

/-!
Verification development for the pyasdb embedded key-value store.

Shallow embedding of the storage engine (`src/pyasdb/pyasdb.py` and
`src/pyasdb/backends/pickle.py`): Python dicts become association
structures, the mutable object graph becomes explicit state passing, and
exceptions become `Except`/`Option` results.
-/

deriving instance DecidableEq for Except

namespace Pyasdb

mutual
/-- Python values stored in documents: `None`, booleans, integers, strings
and nested dicts with string keys.  Leaf floats, opaque objects and list
values are not exercised by the properties verified here. -/
inductive Val : Type where
  | vnone : Val
  | vbool : Bool → Val
  | vint : Int → Val
  | vstr : String → Val
  | vdict : ValDict → Val
  deriving DecidableEq

/-- A Python dict with string keys and `Val` values, in insertion order.
Documents stored in a table are `ValDict`s. -/
inductive ValDict : Type where
  | dnil : ValDict
  | dcons : String → Val → ValDict → ValDict
  deriving DecidableEq
end

/-- Eliminator for `ValDict` alone (the mutual recursor has two motives,
which the `induction` tactic cannot use directly). -/
theorem ValDict.inductionOn {motive : ValDict → Prop} (h1 : motive .dnil)
    (h2 : ∀ k v rest, motive rest → motive (.dcons k v rest)) :
    ∀ d, motive d
  | .dnil => h1
  | .dcons k v rest => h2 k v rest (ValDict.inductionOn h1 h2 rest)

/-- Build a `ValDict` from a list of pairs (for writing concrete documents). -/
def ValDict.ofList : List (String × Val) → ValDict
  | [] => .dnil
  | (k, v) :: rest => .dcons k v (ValDict.ofList rest)

/-- `d[k]` / the dict part of `d.get(k)`: first binding wins. -/
def ValDict.lookup : ValDict → String → Option Val
  | .dnil, _ => none
  | .dcons k' v rest, k => if k' = k then some v else rest.lookup k

/-- `k in d` on a Python dict (`d.keys()` membership). -/
def ValDict.mem (d : ValDict) (k : String) : Bool :=
  (d.lookup k).isSome

/-- `d[k] = v`: replace the binding in place, else append (Python dicts
keep insertion order and append new keys at the end). -/
def ValDict.set : ValDict → String → Val → ValDict
  | .dnil, k, v => .dcons k v .dnil
  | .dcons k' v' rest, k, v =>
    if k' = k then .dcons k' v rest else .dcons k' v' (rest.set k v)

/-- `del d[k]`: remove the binding; `none` models the `KeyError` raised
when `k` is absent. -/
def ValDict.del : ValDict → String → Option ValDict
  | .dnil, _ => none
  | .dcons k' v' rest, k =>
    if k' = k then some rest
    else (rest.del k).map (fun r => ValDict.dcons k' v' r)

/-- `list(d.keys())`. -/
def ValDict.keysList : ValDict → List String
  | .dnil => []
  | .dcons k _ rest => k :: rest.keysList

theorem ValDict.lookup_set_self (d : ValDict) (k : String) (v : Val) :
    (d.set k v).lookup k = some v := by
  induction d using ValDict.inductionOn with
  | h1 => simp [ValDict.set, ValDict.lookup]
  | h2 k' v' rest ih =>
    by_cases h : k' = k <;> simp [ValDict.set, ValDict.lookup, h, ih]

theorem ValDict.lookup_set_ne (d : ValDict) (k q : String) (v : Val)
    (hne : k ≠ q) : (d.set k v).lookup q = d.lookup q := by
  induction d using ValDict.inductionOn with
  | h1 => simp [ValDict.set, ValDict.lookup, hne]
  | h2 k' v' rest ih =>
    by_cases h : k' = k
    · subst h; simp [ValDict.set, ValDict.lookup, hne]
    · by_cases h' : k' = q <;>
        simp [ValDict.set, ValDict.lookup, h, h', ih, Ne.symm hne]

theorem ValDict.mem_iff_lookup (d : ValDict) (k : String) :
    d.mem k = true ↔ ∃ v, d.lookup k = some v := by
  cases h : d.lookup k <;> simp [ValDict.mem, h]

/-- First-occurrence association-list lookup: the model of `d[k]` on a
Python dict used as a flat key-value store. -/
def alookup {κ α : Type} [DecidableEq κ] (d : List (κ × α)) (k : κ) :
    Option α :=
  match d with
  | [] => none
  | (k', v) :: rest => if k' = k then some v else alookup rest k

/-- `d[k] = v` on a flat store: replace the first binding of `k` in place,
else append. -/
def storeSet {κ α : Type} [DecidableEq κ] (d : List (κ × α)) (k : κ)
    (v : α) : List (κ × α) :=
  match d with
  | [] => [(k, v)]
  | (k', v') :: rest =>
    if k' = k then (k', v) :: rest else (k', v') :: storeSet rest k v

theorem alookup_storeSet_self {κ α : Type} [DecidableEq κ]
    (d : List (κ × α)) (k : κ) (v : α) :
    alookup (storeSet d k v) k = some v := by
  induction d with
  | nil => simp [storeSet, alookup]
  | cons hd tl ih =>
    obtain ⟨k', v'⟩ := hd
    by_cases h : k' = k <;> simp [storeSet, alookup, h, ih]

theorem alookup_storeSet_ne {κ α : Type} [DecidableEq κ]
    (d : List (κ × α)) (k q : κ) (v : α) (hne : k ≠ q) :
    alookup (storeSet d k v) q = alookup d q := by
  induction d with
  | nil => simp [storeSet, alookup, hne]
  | cons hd tl ih =>
    obtain ⟨k', v'⟩ := hd
    by_cases h : k' = k
    · subst h; simp [storeSet, alookup, hne, Ne.symm hne]
    · by_cases h' : k' = q <;>
        simp [storeSet, alookup, h, h', ih, Ne.symm hne]

theorem mem_fst_storeSet {κ α : Type} [DecidableEq κ]
    (d : List (κ × α)) (k : κ) (v : α) :
    k ∈ (storeSet d k v).map Prod.fst := by
  induction d with
  | nil => simp [storeSet]
  | cons hd tl ih =>
    obtain ⟨k', v'⟩ := hd
    by_cases h : k' = k <;> simp [storeSet, h, ih]

/-! ## The PickleDBM journaled file backend
(`src/pyasdb/backends/pickle.py`)

`PickleDBM.data` is a Python dict mapping flat keys to stored objects.
Recovery and post-close behaviour depend only on the map's contents, never
on dict insertion order, so the map is modelled extensionally as a
function `String → Option Val`. -/

/-- The backend's in-memory document map (`PickleDBM.data`). -/
def PMap : Type := String → Option Val

/-- The empty map (`dict()`). -/
def PMap.empty : PMap := fun _ => none

/-- `m[k] = v`. -/
def PMap.set (m : PMap) (k : String) (v : Val) : PMap :=
  fun q => if k = q then some v else m q

/-- `del m[k]`: `none` models the `KeyError` Python raises when the key
is absent (`del self.data[segment['key']]`, pickle.py line 107). -/
def PMap.del (m : PMap) (k : String) : Option PMap :=
  match m k with
  | none => none
  | some _ => some (fun q => if k = q then none else m q)

/-- One journal record: `{action: set|del, key, value?, time}`.  The
timestamp is never read during recovery and is omitted.  The wire-format
framing (per-record md5 over size‖payload, pickle.py lines 93-102) is a
parsing concern validated before records are applied; `JRecord` is the
parsed form that `recovery` applies. -/
inductive JRecord : Type where
  | rset (key : String) (value : Val)
  | rdel (key : String)
  deriving DecidableEq

/-- Apply one valid journal record to the in-memory map
(pickle.py lines 104-107).  A `del` of an absent key is a `KeyError`. -/
def applyRecord (m : PMap) (r : JRecord) : Option PMap :=
  match r with
  | .rset k v => some (m.set k v)
  | .rdel k => m.del k

/-- Replay a journal: apply records in file order; the first raised
`KeyError` aborts recovery. -/
def applyJournal (m : PMap) (J : List JRecord) : Option PMap :=
  match J with
  | [] => some m
  | r :: rs =>
    match applyRecord m r with
    | none => none
    | some m' => applyJournal m' rs

/-- Whether a record touches key `k`, and if so the value it leaves there
(`some none` = deleted). -/
def recordAction (r : JRecord) (k : String) : Option (Option Val) :=
  match r with
  | .rset k' v => if k' = k then some (some v) else none
  | .rdel k' => if k' = k then some none else none

/-- The last action a journal takes on key `k`, if any. -/
def lastAction (J : List JRecord) (k : String) : Option (Option Val) :=
  match J with
  | [] => none
  | r :: rs =>
    match lastAction rs k with
    | some a => some a
    | none => recordAction r k

/-- A successful replay leaves each key at the journal's last action on
it, or untouched when the journal never mentions it. -/
theorem applyJournal_lookup (J : List JRecord) (m m' : PMap)
    (h : applyJournal m J = some m') (k : String) :
    m' k = (match lastAction J k with
            | some a => a
            | none => m k) := by
  induction J generalizing m with
  | nil =>
    simp only [applyJournal, Option.some_inj] at h
    subst h; simp [lastAction]
  | cons r rs ih =>
    simp only [applyJournal] at h
    cases hr : applyRecord m r with
    | none => simp [hr] at h
    | some m0 =>
      simp only [hr] at h
      have := ih m0 h
      cases hl : lastAction rs k with
      | some a => simp only [lastAction, hl]; simpa [hl] using this
      | none =>
        simp only [lastAction, hl]
        simp only [hl] at this
        rw [this]
        cases r with
        | rset k' v =>
          simp only [applyRecord, Option.some_inj] at hr
          subst hr
          by_cases hk : k' = k <;> simp [PMap.set, recordAction, hk]
        | rdel k' =>
          simp only [applyRecord, PMap.del] at hr
          cases hm : m k' with
          | none => simp [hm] at hr
          | some v0 =>
            simp only [hm, Option.some_inj] at hr
            subst hr
            by_cases hk : k' = k <;> simp [recordAction, hk]

/-- Replaying a journal a second time over the state left by the first
replay yields the same map again — provided every record of the second
replay still applies.  (This success proviso is essential: a `del` record
whose key is gone raises `KeyError` on the second replay.) -/
theorem applyJournal_idempotent_of_success (J : List JRecord)
    (m m1 m2 : PMap) (h1 : applyJournal m J = some m1)
    (h2 : applyJournal m1 J = some m2) : ∀ k, m2 k = m1 k := by
  intro k
  have hA := applyJournal_lookup J m m1 h1 k
  have hB := applyJournal_lookup J m1 m2 h2 k
  cases hl : lastAction J k with
  | none => simpa [hl] using hB
  | some a =>
    simp only [hl] at hA hB
    rw [hB, hA]

/-- C2: journal replay during recovery is NOT idempotent as claimed.  For
the pre-recovery map `{"a": 1}` and the journal `[del "a"]`, one replay
succeeds (yielding the empty map), but replaying the same journal a second
time over that result raises `KeyError` — `recovery` deletes with
`del self.data[key]` and the key is already gone — instead of yielding the
same map; likewise applying this single `del` record twice fails rather
than equalling a single application. -/
theorem recovery_del_replay_keyerror :
    (applyJournal (PMap.empty.set "a" (Val.vint 1))
        [JRecord.rdel "a"]).isSome = true ∧
    ((applyJournal (PMap.empty.set "a" (Val.vint 1))
        [JRecord.rdel "a"]).bind
      (fun m1 => applyJournal m1 [JRecord.rdel "a"])) = none := by
  constructor <;> rfl

/-! ### Opening the store (`PickleDBM.__init__`, pickle.py lines 8-43) -/

/-- What `__init__` finds on disk: the data file's bytes (`none` models
`FileNotFoundError`), the checksum sidecar's contents when
`<name>.md5sum` exists, and whether `<name>.journal` exists. -/
structure OpenFiles where
  dataFile : Option (List Nat)
  sidecar : Option String
  journalExists : Bool

/-- The in-memory state `__init__` establishes when it succeeds. -/
structure PickleInit where
  checksum : String
  data : PMap

/-- `PickleDBM.__init__`.  `hash` models `md5(·).hexdigest()` and
`decode` models `pickle.loads` (both external library calls).  Stages,
following the source: read the data file (absent → `b""`); when the
sidecar exists, recompute the data file's checksum and raise
`ValueError('MD5SUM MISMATCH')` on mismatch, otherwise adopt the
recomputed checksum (the empty-data/no-sidecar branch stores `b''`,
modelled as `""`); unpickle the data; when a journal exists, run
recovery before serving (a failed `del` during replay is a `KeyError`). -/
def pickleInit (hash : List Nat → String) (decode : List Nat → PMap)
    (files : OpenFiles) (journal : List JRecord) :
    Except String PickleInit :=
  let data := files.dataFile.getD []
  let check : Except String String :=
    match files.sidecar with
    | some side =>
      if hash data ≠ side then .error "MD5SUM MISMATCH" else .ok side
    | none => if data ≠ [] then .ok (hash data) else .ok ""
  match check with
  | .error e => .error e
  | .ok cks =>
    let m := if data = [] then PMap.empty else decode data
    if files.journalExists then
      match applyJournal m journal with
      | none => .error "KeyError"
      | some m' => .ok ⟨cks, m'⟩
    else .ok ⟨cks, m⟩

/-- C3: opening a store whose checksum sidecar exists recomputes the data
file's checksum and fails with the integrity error when it differs from
the sidecar contents.  In particular, for a non-empty original data file
whose sidecar records its checksum, any corruption that changes the
recomputed checksum makes open fail instead of serving data.  (As with
the source's use of md5, the one-byte-corruption phrasing holds exactly
when the digest of the corrupted bytes differs, which is the `hdiff`
hypothesis.) -/
theorem open_fails_on_corrupted_data (hash : List Nat → String)
    (decode : List Nat → PMap) (orig corrupted : List Nat)
    (journal : List JRecord) (jex : Bool)
    (hne : orig ≠ []) (hdiff : hash corrupted ≠ hash orig) :
    pickleInit hash decode ⟨some corrupted, some (hash orig), jex⟩ journal
      = .error "MD5SUM MISMATCH" := by
  simp [pickleInit, hdiff]

/-- Witness for C3 at a concrete input: original bytes `[1]`, corrupted
bytes `[2]`, digest function `toString`. -/
theorem open_fails_on_corrupted_data_witness :
    ([1] : List Nat) ≠ [] ∧
    (toString ([2] : List Nat) ≠ toString ([1] : List Nat)) ∧
    pickleInit (fun l => toString l) (fun _ => PMap.empty)
      ⟨some [2], some (toString ([1] : List Nat)), false⟩ []
      = .error "MD5SUM MISMATCH" :=
  ⟨by decide, by decide,
    open_fails_on_corrupted_data (fun l => toString l) (fun _ => PMap.empty)
      [1] [2] [] false (by decide) (by decide)⟩

/-! ### Runtime state and the closed flag (pickle.py lines 45-48, 113-134) -/

/-- `PickleDBM`'s runtime state.  `data` is `Option` because `close()`
assigns `self.data = None`.  File contents live outside this state; the
in-memory effects of `flush` are confined to `checksum`/`updated`. -/
structure PickleState where
  closed : Bool
  data : Option PMap
  journal : List JRecord
  updated : Bool
  checksum : String

/-- `flush` (pickle.py lines 63-88): when open and dirty, serialize the
map and compute its checksum (`serial` models
`md5(pickle.dumps(self.data)).hexdigest()`); rewrite files only when it
changed; either way clear the dirty flag. -/
def PickleState.flush (serial : Option PMap → String) (s : PickleState) :
    PickleState :=
  if ¬s.closed ∧ s.updated then
    let nc := serial s.data
    if s.checksum ≠ nc then { s with checksum := nc, updated := false }
    else { s with updated := false }
  else s

/-- `close` (pickle.py lines 45-48): flush, then mark closed and drop the
map (`self.data = None`). -/
def PickleState.close (serial : Option PMap → String) (s : PickleState) :
    PickleState :=
  { s.flush serial with closed := true, data := none }

/-- `__getitem__` (pickle.py lines 116-119). -/
def PickleState.getItem (s : PickleState) (k : String) :
    Except String Val :=
  if s.closed then .error "PickleDBM Backend No Longer Open."
  else
    match s.data with
    | none => .error "TypeError"
    | some m =>
      match m k with
      | none => .error "KeyError"
      | some v => .ok v

/-- `__setitem__` (pickle.py lines 121-126): store, append a `set` journal
record, mark dirty. -/
def PickleState.setItem (s : PickleState) (k : String) (v : Val) :
    Except String PickleState :=
  if s.closed then .error "PickleDBM Backend No Longer Open."
  else
    match s.data with
    | none => .error "TypeError"
    | some m =>
      .ok { s with data := some (m.set k v),
                   journal := s.journal ++ [.rset k v], updated := true }

/-- `__delitem__` (pickle.py lines 128-133): delete (KeyError when
absent), append a `del` journal record, mark dirty. -/
def PickleState.delItem (s : PickleState) (k : String) :
    Except String PickleState :=
  if s.closed then .error "PickleDBM Backend No Longer Open."
  else
    match s.data with
    | none => .error "TypeError"
    | some m =>
      match m.del k with
      | none => .error "KeyError"
      | some m' =>
        .ok { s with data := some m',
                     journal := s.journal ++ [.rdel k], updated := true }

/-- C7: after `close()` every read, write and delete on the journaled
file store fails with the distinct "Backend No Longer Open" error — no
post-close operation returns stale or null data. -/
theorem closed_store_ops_fail (serial : Option PMap → String)
    (s : PickleState) (k : String) (v : Val) :
    (s.close serial).getItem k
        = .error "PickleDBM Backend No Longer Open." ∧
    (s.close serial).setItem k v
        = .error "PickleDBM Backend No Longer Open." ∧
    (s.close serial).delItem k
        = .error "PickleDBM Backend No Longer Open." := by
  refine ⟨?_, ?_, ?_⟩ <;>
    simp [PickleState.close, PickleState.getItem, PickleState.setItem,
      PickleState.delItem]

/-! ## The Database layer (pyasdb.py, class DB)

Composite keys `"<table>.<rowkey>"` are modelled as the pair
`(table, rowkey)`: the source's `'.'.join((self.name, key))` and
`key.split('.')[0]` round-trip exactly for the dot-free table names the
namespacing design assumes, and the pair form avoids re-proving string
splitting facts none of the claims concern.  The process-wide lock /
null-lock switching guards mutation but never changes results in this
single-threaded embedding, so it is omitted. -/

/-- A composite key `(tableName, rowKey)`. -/
abbrev CKey := String × String

/-- `DB` state: the pending write-back cache (`self.raw_dict`), the
backing store (`self.shelf`, here the dict backend used with
`needsshelf=False`), and the writeback flag. -/
structure DBState where
  raw_dict : List (CKey × ValDict)
  shelf : List (CKey × ValDict)
  writeback : Bool

/-- `raw_keys` (pyasdb.py lines 705-722): shelf keys, then cache keys not
already present, in order.  (The `__bulkcache` snapshot only matters for
concurrent mutation, outside this embedding.) -/
def DBState.rawKeys (db : DBState) : List CKey :=
  (db.raw_dict.map Prod.fst).foldl
    (fun ks k => if k ∈ ks then ks else ks ++ [k])
    (db.shelf.map Prod.fst)

/-- `raw_get` (pyasdb.py lines 862-877): pending-cache hit wins, else
backend lookup, and a missing key yields the empty document `{}` instead
of a `KeyError`. -/
def DBState.rawGet (db : DBState) (k : CKey) : ValDict :=
  match alookup db.raw_dict k with
  | some v => v
  | none =>
    match alookup db.shelf k with
    | some v => v
    | none => .dnil

/-- One step of `sync`'s merge loop: `self.shelf[key] = self.raw_dict[key]`
for one key of the pending cache (the `none` branch is unreachable:
`sync` only iterates keys of `raw_dict`). -/
def mergeStep {κ α : Type} [DecidableEq κ] (rd : List (κ × α))
    (sh : List (κ × α)) (q : κ) : List (κ × α) :=
  match alookup rd q with
  | some w => storeSet sh q w
  | none => sh

/-- `sync` (pyasdb.py lines 741-759): merge every pending entry into the
backend (removing each from the cache as it is merged), then backend
sync. -/
def DBState.sync (db : DBState) : DBState :=
  { db with
    shelf := (db.raw_dict.map Prod.fst).foldl
      (mergeStep db.raw_dict) db.shelf,
    raw_dict := [] }

/-- `raw_write` (pyasdb.py lines 879-889): insert into the pending cache;
when writeback is disabled, immediately sync. -/
def DBState.rawWrite (db : DBState) (k : CKey) (v : ValDict) : DBState :=
  let db' := { db with raw_dict := storeSet db.raw_dict k v }
  if db.writeback then db' else db'.sync

theorem alookup_mergeFold_of_not_mem {κ α : Type} [DecidableEq κ]
    (rd : List (κ × α)) (ks : List κ) (sh : List (κ × α)) (k : κ) :
    k ∉ ks →
      alookup (ks.foldl (mergeStep rd) sh) k = alookup sh k := by
  induction ks generalizing sh with
  | nil => intro _; simp
  | cons q rest ih =>
    intro hk
    simp only [List.mem_cons, not_or] at hk
    simp only [List.foldl_cons]
    rw [ih _ hk.2]
    unfold mergeStep
    cases hq : alookup rd q with
    | none => rfl
    | some w => exact alookup_storeSet_ne _ q k w (fun h => hk.1 h.symm)

theorem alookup_mergeFold_of_mem {κ α : Type} [DecidableEq κ]
    (rd : List (κ × α)) (ks : List κ) (sh : List (κ × α)) (k : κ) (v : α)
    (hv : alookup rd k = some v) :
    k ∈ ks →
      alookup (ks.foldl (mergeStep rd) sh) k = some v := by
  induction ks generalizing sh with
  | nil => intro hk; simp at hk
  | cons q rest ih =>
    intro hk
    by_cases hmem : k ∈ rest
    · exact ih _ hmem
    · have hqk : q = k := by
        rcases List.mem_cons.mp hk with h | h
        · exact h.symm
        · exact absurd h hmem
      subst hqk
      simp only [List.foldl_cons]
      rw [alookup_mergeFold_of_not_mem rd rest _ q hmem]
      unfold mergeStep
      rw [hv]
      exact alookup_storeSet_self sh q v

theorem alookup_none_iff_not_mem_fst {κ α : Type} [DecidableEq κ]
    (d : List (κ × α)) (k : κ) :
    alookup d k = none ↔ k ∉ d.map Prod.fst := by
  induction d with
  | nil => simp [alookup]
  | cons hd tl ih =>
    obtain ⟨k', v'⟩ := hd
    by_cases h : k' = k
    · subst h; simp [alookup]
    · rw [alookup, if_neg h, List.map_cons]
      simp only [List.mem_cons, not_or]
      constructor
      · intro h1; exact ⟨fun he => h he.symm, ih.1 h1⟩
      · intro h1; exact ih.2 h1.2

/-- `sync` never changes what `raw_get` sees. -/
theorem rawGet_sync (db : DBState) (k : CKey) :
    db.sync.rawGet k = db.rawGet k := by
  unfold DBState.sync DBState.rawGet
  simp only [alookup]
  cases hrd : alookup db.raw_dict k with
  | some v =>
    have hk : k ∈ db.raw_dict.map Prod.fst := by
      by_contra hmem
      rw [(alookup_none_iff_not_mem_fst db.raw_dict k).2 hmem] at hrd
      exact Option.noConfusion hrd
    rw [alookup_mergeFold_of_mem db.raw_dict _ db.shelf k v hrd hk]
  | none =>
    have hk : k ∉ db.raw_dict.map Prod.fst :=
      (alookup_none_iff_not_mem_fst db.raw_dict k).1 hrd
    rw [alookup_mergeFold_of_not_mem db.raw_dict _ db.shelf k hk]

/-- Reading back the key just written returns the written document,
whether the write is still pending in the cache (`writeback = true`) or
was merged into the backend by the automatic sync. -/
theorem rawGet_rawWrite_self (db : DBState) (k : CKey) (v : ValDict) :
    (db.rawWrite k v).rawGet k = v := by
  unfold DBState.rawWrite
  cases hw : db.writeback with
  | true => simp [DBState.rawGet, alookup_storeSet_self]
  | false =>
    simp only [Bool.false_eq_true, if_false]
    rw [rawGet_sync]
    simp [DBState.rawGet, alookup_storeSet_self]

/-! ## Entries and defaults (pyasdb.py, class Entry)

`Special` subclasses (the Join variants) are closed markers recognized
by identity tests in the source; the embedding renders a default as
either a plain stored value or a special marker whose computed result is
abstracted as `res` (the claims never execute a join). -/

/-- One table default: a plain value, or a computed `Special` whose
`call` result is abstracted by `res`. -/
inductive DefaultV : Type where
  | plain (v : Val)
  | special (res : Val)
  deriving DecidableEq

/-- A defaults dict. -/
abbrev Defaults := List (String × DefaultV)

/-- Python truthiness of `self.defaults` (`None` and `{}` are falsy). -/
def defaultsTruthy : Option Defaults → Bool
  | none => false
  | some ds => !ds.isEmpty

/-- `Entry.__getitem__` (pyasdb.py lines 178-207) on a dict-typed entry:
returns the accessed value together with the possibly-materialized
document.  A `Special` default is returned as its computed result without
touching the document; a plain default for an absent key is deep-copied
into the document first (line 191); `.error` models the `KeyError` on a
truly absent key.  The wrapping of dict-valued results in child Entries
is rendered by the caller that needs it (`recGet`). -/
def entryGetVal (dfs : Option Defaults) (doc : ValDict) (k : String) :
    Except String (Val × ValDict) :=
  if defaultsTruthy dfs then
    match alookup (dfs.getD []) k with
    | some (.special r) => .ok (r, doc)
    | some (.plain d) =>
      let doc' := if doc.mem k then doc else doc.set k d
      match doc'.lookup k with
      | some v => .ok (v, doc')
      | none => .error "KeyError"
    | none =>
      match doc.lookup k with
      | some v => .ok (v, doc)
      | none => .error "KeyError"
  else
    match doc.lookup k with
    | some v => .ok (v, doc)
    | none => .error "KeyError"

/-- An `Entry` over a dict document: its position (top-level when the
handle is a Table or plain dict, nested when the handle is another
Entry), the auto-update flag, the wrapped document and the defaults. -/
structure EntryS where
  top_level : Bool
  auto_update : Bool
  value : ValDict
  defaults : Option Defaults
  deriving DecidableEq

/-- `Entry.__setitem__` (pyasdb.py lines 209-223): reject writing over a
`Special` default (assigning a `Special` value itself is excluded by
`Val`'s typing); store, then `db_write` iff
`self.auto_update or not self.top_level`.  The returned flag records
whether `db_write` ran. -/
def EntryS.setItem (e : EntryS) (k : String) (v : Val) :
    Except String (EntryS × Bool) :=
  match (if defaultsTruthy e.defaults then alookup (e.defaults.getD []) k
         else none) with
  | some (.special _) =>
    .error
      "Special Objects Can Not Be Changed Outside of Defaults Definitions"
  | _ =>
    .ok ({ e with value := e.value.set k v },
         e.auto_update || !e.top_level)

/-- `Entry.__delitem__` (pyasdb.py lines 234-238): `del self.value[key]`
(`none` models its `KeyError`), then
`if self.auto_update or not self.top_level: if self.auto_update:
self.db_write()` — transcribed literally in the returned flag. -/
def EntryS.delItem (e : EntryS) (k : String) : Option (EntryS × Bool) :=
  match e.value.del k with
  | none => none
  | some d' =>
    some ({ e with value := d' },
          (e.auto_update || !e.top_level) && e.auto_update)

/-- C8: deletion is NOT symmetric to assignment.  For a nested
(non-top-level) entry with auto-update disabled, assignment invokes
`db_write` (propagating to the parent), but deletion does not — the
claim that nested deletes always propagate regardless of auto-update is
false on this input. -/
theorem nested_delete_does_not_propagate :
    ((EntryS.delItem
        ⟨false, false, ValDict.ofList [("a", Val.vint 1), ("b", Val.vint 2)],
         none⟩ "a").map Prod.snd = some false) ∧
    ((EntryS.setItem
        ⟨false, false, ValDict.ofList [("a", Val.vint 1), ("b", Val.vint 2)],
         none⟩ "a" (Val.vint 3)).toOption.map Prod.snd = some true) := by
  constructor <;> rfl

/-- C8 amended: a delete persists (invokes `db_write`) exactly when
auto-update is enabled, for top-level and nested entries alike; unlike
assignment, a nested delete with auto-update disabled mutates only the
shared document in place and never triggers a write-back. -/
theorem entry_delete_writes_iff_auto_update (e : EntryS) (k : String)
    (e' : EntryS) (w : Bool) (h : e.delItem k = some (e', w)) :
    w = e.auto_update := by
  unfold EntryS.delItem at h
  cases hd : e.value.del k with
  | none => rw [hd] at h; exact Option.noConfusion h
  | some d' =>
    rw [hd] at h
    injection h with h1
    have h2 : ((e.auto_update || !e.top_level) && e.auto_update) = w :=
      congrArg Prod.snd h1
    rw [← h2]
    cases e.auto_update <;> simp

/-- Witness for C8's amended theorem at a concrete nested entry with
auto-update disabled: the delete succeeds and its write flag is
`false` = `auto_update`. -/
theorem entry_delete_writes_iff_auto_update_witness :
    (EntryS.delItem
        ⟨false, false, ValDict.ofList [("a", Val.vint 1)], none⟩ "a"
      = some (⟨false, false, ValDict.dnil, none⟩, false)) ∧
    (false : Bool) =
      (⟨false, false, ValDict.ofList [("a", Val.vint 1)], none⟩ :
        EntryS).auto_update := by
  exact ⟨by decide,
    entry_delete_writes_iff_auto_update
      ⟨false, false, ValDict.ofList [("a", Val.vint 1)], none⟩ "a"
      ⟨false, false, ValDict.dnil, none⟩ false (by decide)⟩

/-! ## Table reads (pyasdb.py, class Table) -/

/-- A table's configuration: its name, its defaults, and the
`synchronous_entries` flag its Entries inherit as `auto_update`. -/
structure TableCfg where
  name : String
  defaults : Option Defaults
  synchronous_entries : Bool

/-- `Table.__getitem__` (pyasdb.py lines 515-524): wrap `raw_get`'s
result in a top-level Entry carrying the table defaults. -/
def tableGetEntry (db : DBState) (t : TableCfg) (key : String) : EntryS :=
  ⟨true, t.synchronous_entries, db.rawGet (t.name, key), t.defaults⟩

/-- C6: missing data never raises.  For a composite key absent from both
the pending write-back cache and the backend, `raw_get` returns the empty
document (it is a total function of the state), and `Table.__getitem__`
returns a top-level Entry wrapping that empty document. -/
theorem missing_row_returns_empty (db : DBState) (t : TableCfg)
    (key : String)
    (h1 : alookup db.raw_dict (t.name, key) = none)
    (h2 : alookup db.shelf (t.name, key) = none) :
    db.rawGet (t.name, key) = .dnil ∧
    (tableGetEntry db t key).value = .dnil ∧
    (tableGetEntry db t key).top_level = true := by
  have hg : db.rawGet (t.name, key) = .dnil := by
    unfold DBState.rawGet
    rw [h1, h2]
  exact ⟨hg, by simp [tableGetEntry, hg], rfl⟩

/-- Witness for C6 on the empty database. -/
theorem missing_row_returns_empty_witness :
    (alookup (⟨[], [], true⟩ : DBState).raw_dict ("t", "k") = none) ∧
    (alookup (⟨[], [], true⟩ : DBState).shelf ("t", "k") = none) ∧
    ((⟨[], [], true⟩ : DBState).rawGet ("t", "k") = .dnil ∧
     (tableGetEntry ⟨[], [], true⟩ ⟨"t", none, false⟩ "k").value = .dnil ∧
     (tableGetEntry ⟨[], [], true⟩ ⟨"t", none, false⟩ "k").top_level
       = true) :=
  ⟨rfl, rfl,
    missing_row_returns_empty ⟨[], [], true⟩ ⟨"t", none, false⟩ "k" rfl rfl⟩

/-- Reading one field of one row, `table[key][field]`
(pyasdb.py lines 515-524 then 178-207).  In CPython the Entry's `value`
is the very dict object stored in the pending cache or the dict backend,
so a default materialized by `Entry.__getitem__` mutates the stored
document in place; the embedding renders that aliasing by writing the
updated document back to the slot it was read from — and to nowhere when
the row was absent and `raw_get` produced a fresh `{}`. -/
def tableGetField (db : DBState) (t : TableCfg) (key field : String) :
    Except String Val × DBState :=
  let ck : CKey := (t.name, key)
  match entryGetVal t.defaults (db.rawGet ck) field with
  | .error e => (.error e, db)
  | .ok (v, doc') =>
    let db' :=
      if (alookup db.raw_dict ck).isSome then
        { db with raw_dict := storeSet db.raw_dict ck doc' }
      else if (alookup db.shelf ck).isSome then
        { db with shelf := storeSet db.shelf ck doc' }
      else db
    (.ok v, db')

/-- C9: defaults materialize into storage on first access.  For a row
present in the store (pending cache or backend) whose document lacks
field `k`, and a table whose defaults map `k` to a plain (non-computed)
default `d`, reading `entry[k]` returns `d`, and afterwards the row's
stored document — as seen by a subsequent `raw_get` — also maps `k` to
`d`. -/
theorem default_materializes_on_first_read (db : DBState) (t : TableCfg)
    (key field : String) (d : Val) (doc : ValDict) (ds : Defaults)
    (hrow : alookup db.raw_dict (t.name, key) = some doc ∨
            (alookup db.raw_dict (t.name, key) = none ∧
             alookup db.shelf (t.name, key) = some doc))
    (hds : t.defaults = some ds)
    (hne : ds.isEmpty = false)
    (hdef : alookup ds field = some (.plain d))
    (habs : doc.mem field = false) :
    (tableGetField db t key field).1 = .ok d ∧
    ((tableGetField db t key field).2.rawGet (t.name, key)).lookup field
      = some d := by
  have hget : db.rawGet (t.name, key) = doc := by
    unfold DBState.rawGet
    rcases hrow with h | ⟨h1, h2⟩
    · rw [h]
    · rw [h1, h2]
  have hentry :
      entryGetVal t.defaults doc field = .ok (d, doc.set field d) := by
    unfold entryGetVal
    rw [hds]
    simp only [defaultsTruthy, hne, Bool.not_false, if_true,
      Option.getD_some, hdef, habs, Bool.false_eq_true, if_false,
      ValDict.lookup_set_self]
  unfold tableGetField
  simp only [hget, hentry]
  rcases hrow with h | ⟨h1, h2⟩
  · simp only [h, Option.isSome_some, if_true]
    constructor
    · trivial
    · simp [DBState.rawGet, alookup_storeSet_self, ValDict.lookup_set_self]
  · simp only [h1, h2, Option.isSome_none, Option.isSome_some,
      Bool.false_eq_true, if_false, if_true]
    constructor
    · trivial
    · simp [DBState.rawGet, h1, alookup_storeSet_self,
        ValDict.lookup_set_self]

/-- Witness for C9: a table `"t"` with defaults `{"count": 0}` and the
row `"r"` stored as `{}` in the pending cache — the read returns `0` and
the stored document afterwards contains `"count" : 0`. -/
theorem default_materializes_on_first_read_witness :
    ((tableGetField
        ⟨[(("t", "r"), ValDict.dnil)], [], true⟩
        ⟨"t", some [("count", DefaultV.plain (Val.vint 0))], false⟩
        "r" "count").1 = .ok (Val.vint 0)) ∧
    (((tableGetField
        ⟨[(("t", "r"), ValDict.dnil)], [], true⟩
        ⟨"t", some [("count", DefaultV.plain (Val.vint 0))], false⟩
        "r" "count").2.rawGet ("t", "r")).lookup "count"
      = some (Val.vint 0)) :=
  default_materializes_on_first_read
    ⟨[(("t", "r"), ValDict.dnil)], [], true⟩
    ⟨"t", some [("count", DefaultV.plain (Val.vint 0))], false⟩
    "r" "count" (Val.vint 0) ValDict.dnil
    [("count", DefaultV.plain (Val.vint 0))]
    (Or.inl (by decide)) rfl (by decide) (by decide) (by decide)

/-! ## Secondary indexes (pyasdb.py, class Table)

In the source each table's indexes live in a sibling meta-table
`<name>__index` inside the same flat raw store: one row per indexed
field, mapping field values to Python sets of row keys.  Those reserved
meta-keys never collide with the table's own composite keys (their first
prefix segment is `<name>__index`, never `<name>`), so the embedding
keeps the index rows in a typed side state; buckets are duplicate-free
lists read as sets. -/

/-- One field's index row: `{field value → set of row keys}`. -/
abbrev FieldIndex := List (Val × List String)

/-- A table's index bookkeeping: `self.index_keys` plus the meta-table
rows.  Field identifiers are normalized by the source (strings, ints and
floats pass through, anything else is hashed); document keys are strings
in the embedding, so normalization is the identity. -/
structure IdxState where
  index_keys : List String
  index : List (String × FieldIndex)
  deriving DecidableEq

/-- `self.index[field_hash]`: the meta-table row via `raw_get` (a missing
row reads as `{}`). -/
def IdxState.bucketOf (idx : IdxState) (f : String) : FieldIndex :=
  (alookup idx.index f).getD []

/-- Incremental index maintenance for one field of a new row value
(pyasdb.py lines 547-588): skip unchanged values; remove the row key from
the old value's bucket, soft-failing (warn and continue) when the bucket
or the member is missing — the source's `except KeyError`; then add the
row key to the new value's bucket, creating the bucket if the value is
new.  `old_value[field]` is an Entry access and so consults the table
defaults; a `KeyError` there selects the no-old-value path.  The source
mutates the stored bucket sets in place through the aliased object
`raw_get` returned; the embedding writes the updated row back. -/
def maintainField (dfs : Option Defaults) (old_value : ValDict)
    (key : String) (value : ValDict) (idx : IdxState) (field : String) :
    IdxState :=
  if field ∈ idx.index_keys then
    match value.lookup field with
    | none => idx
    | some nv =>
      let old : Option Val :=
        match entryGetVal dfs old_value field with
        | .ok (ov, _) => some ov
        | .error _ => none
      let update : Bool :=
        match old with
        | some ov => ov != nv
        | none => true
      if update then
        let bucket0 := idx.bucketOf field
        let new_index := (alookup bucket0 nv).isNone
        let bucket1 :=
          match old with
          | some ov =>
            match alookup bucket0 ov with
            | some s =>
              if key ∈ s then storeSet bucket0 ov (s.erase key)
              else bucket0
            | none => bucket0
          | none => bucket0
        let bucket2 :=
          if new_index then storeSet bucket1 nv [key]
          else
            match alookup bucket1 nv with
            | some s =>
              storeSet bucket1 nv (if key ∈ s then s else s ++ [key])
            | none => storeSet bucket1 nv [key]
        { idx with index := storeSet idx.index field bucket2 }
      else idx
  else idx

/-- `Table.__setitem__` (pyasdb.py lines 526-592) for a data table:
when any index exists, read the old row once and update the affected
indexes from it, then write the new document through `raw_write` under
the composite key.  (`str(key)` coercion and the Entry-unwrap/dict type
checks are rendered by the typing.) -/
def tableSetItem (db : DBState) (idx : IdxState) (t : TableCfg)
    (key : String) (value : ValDict) : IdxState × DBState :=
  let idx' :=
    if idx.index_keys.isEmpty then idx
    else
      let old_value := db.rawGet (t.name, key)
      value.keysList.foldl (maintainField t.defaults old_value key value)
        idx
  (idx', db.rawWrite (t.name, key) value)

/-- C4: round-trip.  After `T[K] = D`, reading `T[K]` yields an Entry
whose underlying document equals `D` — both immediately (when writeback
is on the write is still pending in the cache, otherwise it was already
merged by the automatic sync) and after a further explicit `sync`
merges the pending cache into the backend. -/
theorem table_write_read_roundtrip (db : DBState) (idx : IdxState)
    (t : TableCfg) (key : String) (value : ValDict) :
    ((tableGetEntry (tableSetItem db idx t key value).2 t key).value
        = value) ∧
    ((tableGetEntry (tableSetItem db idx t key value).2.sync t key).value
        = value) := by
  have h1 : (tableSetItem db idx t key value).2
      = db.rawWrite (t.name, key) value := rfl
  constructor
  · simp [tableGetEntry, h1, rawGet_rawWrite_self]
  · simp [tableGetEntry, h1, rawGet_sync, rawGet_rawWrite_self]

/-- `Table.keys` (pyasdb.py lines 492-507): the table's row keys, derived
by filtering the flat keyspace on the table-name prefix and stripping it;
`set(...)` deduplicates (rendered as `dedup`, one deterministic
linearization of the Python set). -/
def tableKeys (db : DBState) (name : String) : List String :=
  ((db.rawKeys.filter (fun ck => ck.1 = name)).map Prod.snd).dedup

/-- `Table.refresh_indexes` (pyasdb.py lines 466-486): seed a temporary
empty index for each requested field, raising when one is not indexed;
scan every row, bucketing `self[line][key]` (an Entry access, so defaults
apply) for each requested field present in the row's document; finally
swap rows into the live index — the swap loop iterates `self.index_keys`
and reads `tmp_index[key]`, which raises `KeyError` for every indexed
field that was not requested. -/
def refreshIndexes (db : DBState) (t : TableCfg) (idx : IdxState)
    (keys : List String) : Except String IdxState :=
  let seed : Except String (List (String × FieldIndex)) :=
    keys.foldl (fun acc k =>
      match acc with
      | .error e => .error e
      | .ok tmp =>
        if k ∈ idx.index_keys then .ok (storeSet tmp k ([] : FieldIndex))
        else .error "Index does not exist") (.ok [])
  match seed with
  | .error e => .error e
  | .ok tmp0 =>
    let tmp := (tableKeys db t.name).foldl (fun tmp line =>
      keys.foldl (fun tmp k =>
        let doc := db.rawGet (t.name, line)
        if doc.mem k then
          match entryGetVal t.defaults doc k with
          | .ok (v, _) =>
            match alookup tmp k with
            | some fi =>
              match alookup fi v with
              | some s =>
                storeSet tmp k
                  (storeSet fi v (if line ∈ s then s else s ++ [line]))
              | none => storeSet tmp k (storeSet fi v [line])
            | none => tmp
          | .error _ => tmp
        else tmp) tmp) tmp0
    idx.index_keys.foldl (fun acc k =>
      match acc with
      | .error e => .error e
      | .ok i =>
        match alookup tmp k with
        | some fi => .ok { i with index := storeSet i.index k fi }
        | none => .error "KeyError") (.ok idx)

/-- C5: `refresh_indexes` does NOT succeed on a proper subset of the
indexed fields.  With indexes on `a` and `b`, refreshing only `["a"]`
raises `KeyError` in the swap loop (which iterates `self.index_keys` but
`tmp_index` holds only the requested fields), while refreshing the full
set `["a", "b"]` succeeds. -/
theorem refresh_indexes_subset_keyerror :
    (refreshIndexes
        ⟨[], [(("t", "r1"), ValDict.ofList [("a", Val.vint 1)])], true⟩
        ⟨"t", none, false⟩
        ⟨["a", "b"], [("a", []), ("b", [])]⟩
        ["a"] = .error "KeyError") ∧
    ((refreshIndexes
        ⟨[], [(("t", "r1"), ValDict.ofList [("a", Val.vint 1)])], true⟩
        ⟨"t", none, false⟩
        ⟨["a", "b"], [("a", []), ("b", [])]⟩
        ["a", "b"]).toOption.isSome = true) := by
  constructor <;> rfl

/-! ## The query engine (pyasdb.py, class Query) -/

/-- The types usable as `checktype` arguments (`isinstance` targets). -/
inductive TypeTag : Type where
  | tNone : TypeTag
  | tBool : TypeTag
  | tInt : TypeTag
  | tStr : TypeTag
  | tDict : TypeTag
  deriving DecidableEq

/-- `isinstance(v, t)`; Python `bool` is a subclass of `int`. -/
def isInst (v : Val) (t : TypeTag) : Bool :=
  match v, t with
  | .vnone, .tNone => true
  | .vbool _, .tBool => true
  | .vbool _, .tInt => true
  | .vint _, .tInt => true
  | .vstr _, .tStr => true
  | .vdict _, .tDict => true
  | _, _ => false

/-- Python truthiness of a value. -/
def pyTruthy : Val → Bool
  | .vnone => false
  | .vbool b => b
  | .vint n => n != 0
  | .vstr s => s != ""
  | .vdict d => d != .dnil

/-- Truthiness of an optional `compare` argument (`if compare:`). -/
def optTruthy : Option Val → Bool
  | none => false
  | some v => pyTruthy v

/-- Truthiness of an optional `count` argument (`if count:`). -/
def countTruthy : Option Nat → Bool
  | none => false
  | some n => n != 0

/-- A query predicate.  The source calls the same Python function either
as `func(value)` or as `func(value, compare)` depending on `compare`'s
truthiness; the embedding carries both call shapes. -/
structure PyFunc where
  call1 : Val → Bool
  call2 : Val → Val → Bool

/-- The predicate application the source performs:
`func(v, compare)` when `compare` is truthy, else `func(v)`
(pyasdb.py lines 284-287 and 298-316). -/
def callPred (pf : PyFunc) (compare : Option Val) (v : Val) : Bool :=
  if optTruthy compare then pf.call2 v (compare.getD Val.vnone)
  else pf.call1 v

/-- A `field` argument to `query`: a scalar string field, or a tuple of
keys denoting a nested path.  The source's normalization (lines 273-276)
passes strings/ints/floats and tuples through and hashes anything else;
document keys are strings here, so it is the identity. -/
inductive QField : Type where
  | fstr (s : String)
  | fpath (p : List String)
  deriving DecidableEq

/-- A plain stored dict reused as the defaults of a child Entry. -/
def ddAsDefaults : ValDict → Defaults
  | .dnil => []
  | .dcons k v rest => (k, .plain v) :: ddAsDefaults rest

/-- `Entry.recursive_get` (pyasdb.py lines 167-176): walk a tuple of keys,
catching `KeyError` per frame (missing key → `None`); a scalar met before
the last key has no `recursive_get` attribute (`AttributeError`).  A
dict-valued hop is wrapped in a child Entry whose defaults come from
`self.defaults[key]` (lines 201-205): a non-dict default is a caught
`TypeError` (child gets no defaults), while a defaults dict lacking the
key raises `KeyError` from `self.defaults[key]`, caught by this frame's
handler (hop result `None`).  Materialization side effects on
intermediate documents do not change the returned value and are not
threaded. -/
def recGetPath (dfs : Option Defaults) (doc : ValDict) :
    List String → Except String (Option Val)
  | [] => .error "IndexError"
  | [k] => .ok ((entryGetVal dfs doc k).toOption.map Prod.fst)
  | k :: k2 :: rest =>
    match entryGetVal dfs doc k with
    | .error _ => .ok none
    | .ok (v, _) =>
      match v with
      | .vdict d =>
        match dfs with
        | none => recGetPath none d (k2 :: rest)
        | some ds =>
          match alookup ds k with
          | none => .ok none
          | some (.plain (.vdict dd)) =>
            recGetPath (some (ddAsDefaults dd)) d (k2 :: rest)
          | some _ => recGetPath none d (k2 :: rest)
      | _ => .error "AttributeError"

/-- `recursive_get` on either field form (see `recGetPath` for tuples). -/
def recGet (dfs : Option Defaults) (doc : ValDict) :
    QField → Except String (Option Val)
  | .fstr k => .ok ((entryGetVal dfs doc k).toOption.map Prod.fst)
  | .fpath p => recGetPath dfs doc p

/-- The index fast path's bucket loop (pyasdb.py lines 282-287): union
the row-key sets of every bucket whose value satisfies the predicate.
Python accumulates into a set; the embedding accumulates a duplicate-free
list in bucket order. -/
def unionMatching (c : Val → Bool) : FieldIndex → List String →
    List String
  | [], acc => acc
  | p :: rest, acc =>
    unionMatching c rest
      (if c p.1 then acc ++ p.2.filter (fun r => r ∉ acc) else acc)

/-- The index fast path (pyasdb.py lines 279-296, without the count
slice): matching buckets' keys, intersected with the current results. -/
def queryFastSet (fi : FieldIndex) (pf : PyFunc) (compare : Option Val)
    (results : List String) : List String :=
  (unionMatching (callPred pf compare) fi []).filter
    (fun r => r ∈ results)

/-- The fallback filter body (pyasdb.py lines 298-316) for one candidate
row key: skip when `recursive_get` gives `None` (missing field or stored
`None` — Python cannot tell them apart), skip on a failed `checktype`
test, else apply the predicate. -/
def fallbackPred (db : DBState) (t : TableCfg) (field : QField)
    (pf : PyFunc) (checktype : Option TypeTag) (compare : Option Val)
    (key : String) : Except String Bool :=
  match recGet t.defaults (db.rawGet (t.name, key)) field with
  | .error e => .error e
  | .ok ov =>
    match ov with
    | none => .ok false
    | some .vnone => .ok false
    | some v =>
      if (match checktype with
          | some ty => isInst v ty
          | none => true) then .ok (callPred pf compare v)
      else .ok false

/-- Running the fallback filter over every candidate
(`list(filter(...))`, line 330): the first raised error aborts. -/
def fallbackAll (pred : String → Except String Bool) :
    List String → Except String (List String)
  | [] => .ok []
  | r :: rest =>
    match pred r with
    | .error e => .error e
    | .ok true => (fallbackAll pred rest).map (fun l => r :: l)
    | .ok false => fallbackAll pred rest

/-- The lazy count-capped fallback (pyasdb.py lines 321-328): pull
matches from the filter until `count` are collected; predicates beyond
that are never evaluated. -/
def fallbackTake (pred : String → Except String Bool) :
    List String → Nat → Except String (List String)
  | _, 0 => .ok []
  | [], _ => .ok []
  | r :: rest, Nat.succ n =>
    match pred r with
    | .error e => .error e
    | .ok true => (fallbackTake pred rest n).map (fun l => r :: l)
    | .ok false => fallbackTake pred rest (Nat.succ n)

/-- `Query.query` (pyasdb.py lines 262-330).  The index fast path is
taken when an index exists on the (normalized, scalar) field and has
fewer buckets than current candidates; it ignores `checktype`.  Otherwise
the lazily-evaluated fallback scan runs, capped at `count` matches when
`count` is truthy.  (A tuple field sits in `index_keys` only when an
index was created on a tuple, which the index model does not represent.) -/
def queryQuery (db : DBState) (t : TableCfg) (idx : IdxState)
    (results : List String) (field : QField) (pf : PyFunc)
    (checktype : Option TypeTag) (compare : Option Val)
    (count : Option Nat) : Except String (List String) :=
  let fallback : Except String (List String) :=
    if countTruthy count then
      fallbackTake (fallbackPred db t field pf checktype compare) results
        (count.getD 0)
    else
      fallbackAll (fallbackPred db t field pf checktype compare) results
  match field with
  | .fstr s =>
    if s ∈ idx.index_keys ∧ (idx.bucketOf s).length < results.length then
      let out := queryFastSet (idx.bucketOf s) pf compare results
      if countTruthy count then .ok (out.take (count.getD 0))
      else .ok out
    else fallback
  | .fpath _ => fallback

/-- `Table.query` (pyasdb.py lines 630-636): a fresh Query over all row
keys, immediately narrowed. -/
def tableQuery (db : DBState) (t : TableCfg) (idx : IdxState)
    (field : QField) (pf : PyFunc) (checktype : Option TypeTag)
    (compare : Option Val) (count : Option Nat) :
    Except String (List String) :=
  queryQuery db t idx (tableKeys db t.name) field pf checktype compare
    count

/-- Concrete store for the C1 analysis: table `t` with rows
`r1 ↦ {f: 1}`, `r2 ↦ {f: "a"}`, `r3 ↦ {f: 1}`, all merged in the
backend. -/
def qDb : DBState :=
  ⟨[], [(("t", "r1"), ValDict.ofList [("f", Val.vint 1)]),
        (("t", "r2"), ValDict.ofList [("f", Val.vstr "a")]),
        (("t", "r3"), ValDict.ofList [("f", Val.vint 1)])], true⟩

/-- The C1 table configuration (no defaults). -/
def qTab : TableCfg := ⟨"t", none, false⟩

/-- A fresh index on `f` for `qDb`: two buckets over three candidates,
so the fast path fires. -/
def qIdx : IdxState :=
  ⟨["f"], [("f", [(Val.vint 1, ["r1", "r3"]), (Val.vstr "a", ["r2"])])]⟩

/-- C1: the fast path and the fallback do NOT return the same result set
for every `checktype`.  With `checktype=int` and an always-true
predicate, the fast path (taken: 2 buckets < 3 candidates) ignores
`checktype` and returns all three rows, while the same query without the
index filters `r2 ↦ {f: "a"}` out — a set difference, not merely an
ordering difference. -/
theorem query_fast_path_ignores_checktype :
    (tableQuery qDb qTab qIdx (.fstr "f")
        ⟨fun _ => true, fun _ _ => true⟩ (some .tInt) none none
      = .ok ["r1", "r3", "r2"]) ∧
    (tableQuery qDb qTab ⟨[], []⟩ (.fstr "f")
        ⟨fun _ => true, fun _ _ => true⟩ (some .tInt) none none
      = .ok ["r1", "r3"]) ∧
    ("r2" ∈ ["r1", "r3", "r2"]) ∧ ¬("r2" ∈ ["r1", "r3"]) := by
  refine ⟨by decide, by decide, by decide, by decide⟩

/-- The fallback filter as a pure predicate: scalar field, no table
defaults, no `checktype`. -/
def fallbackPure (db : DBState) (name F : String) (pf : PyFunc)
    (compare : Option Val) (r : String) : Bool :=
  match (db.rawGet (name, r)).lookup F with
  | none => false
  | some .vnone => false
  | some v => callPred pf compare v

theorem fallbackPred_no_defaults (db : DBState) (t : TableCfg)
    (F : String) (pf : PyFunc) (compare : Option Val) (key : String)
    (hdfs : t.defaults = none) :
    fallbackPred db t (.fstr F) pf none compare key
      = .ok (fallbackPure db t.name F pf compare key) := by
  unfold fallbackPred fallbackPure recGet entryGetVal
  rw [hdfs]
  simp only [defaultsTruthy, Bool.false_eq_true, if_false]
  cases h : (db.rawGet (t.name, key)).lookup F with
  | none => rfl
  | some v => cases v <;> rfl

theorem mem_unionMatching (c : Val → Bool) (fi : FieldIndex)
    (acc : List String) (r : String) :
    r ∈ unionMatching c fi acc ↔
      r ∈ acc ∨ ∃ p ∈ fi, c p.1 = true ∧ r ∈ p.2 := by
  induction fi generalizing acc with
  | nil => simp [unionMatching]
  | cons p rest ih =>
    unfold unionMatching
    rw [ih]
    by_cases hc : c p.1 = true
    · simp only [hc, if_true]
      constructor
      · rintro (h | h)
        · rcases List.mem_append.mp h with h' | h'
          · exact Or.inl h'
          · exact Or.inr ⟨p, List.mem_cons_self _ _, hc,
              (List.mem_filter.mp h').1⟩
        · obtain ⟨q, hq, hq1, hq2⟩ := h
          exact Or.inr ⟨q, List.mem_cons_of_mem _ hq, hq1, hq2⟩
      · rintro (h | ⟨q, hq, hq1, hq2⟩)
        · exact Or.inl (List.mem_append.mpr (Or.inl h))
        · rcases List.mem_cons.mp hq with heq | hq'
          · subst heq
            by_cases hacc : r ∈ acc
            · exact Or.inl (List.mem_append.mpr (Or.inl hacc))
            · exact Or.inl (List.mem_append.mpr (Or.inr
                (List.mem_filter.mpr ⟨hq2, by simpa using hacc⟩)))
          · exact Or.inr ⟨q, hq', hq1, hq2⟩
    · simp only [hc, if_false]
      constructor
      · rintro (h | ⟨q, hq, hq1, hq2⟩)
        · exact Or.inl h
        · exact Or.inr ⟨q, List.mem_cons_of_mem _ hq, hq1, hq2⟩
      · rintro (h | ⟨q, hq, hq1, hq2⟩)
        · exact Or.inl h
        · rcases List.mem_cons.mp hq with heq | hq'
          · subst heq; exact absurd hq1 hc
          · exact Or.inr ⟨q, hq', hq1, hq2⟩

theorem fallbackPure_of_lookup (db : DBState) (name F : String)
    (pf : PyFunc) (compare : Option Val) (r : String) (v : Val)
    (hlook : (db.rawGet (name, r)).lookup F = some v)
    (hv : v ≠ Val.vnone) :
    fallbackPure db name F pf compare r = callPred pf compare v := by
  unfold fallbackPure
  rw [hlook]
  cases v with
  | vnone => exact absurd rfl hv
  | vbool b => rfl
  | vint n => rfl
  | vstr s => rfl
  | vdict d => rfl

theorem fallbackAll_pure (pred : String → Except String Bool)
    (g : String → Bool) (hp : ∀ r, pred r = .ok (g r)) :
    ∀ l : List String, fallbackAll pred l = .ok (l.filter g) := by
  intro l
  induction l with
  | nil => rfl
  | cons r rest ih =>
    unfold fallbackAll
    rw [hp r]
    cases hg : g r with
    | true => simp [List.filter_cons, hg, ih, Except.map]
    | false => simp [List.filter_cons, hg, ih, Except.map]

/-- C1 amended: the fast path is result-set-equal to the fallback under
the conditions the counterexamples force — a scalar field, a fresh index
(bucket membership coincides with document values for every candidate,
and every present value has a bucket), no `checktype` (the fast path
ignores it), no `count` cap (the two paths would select different
subsets), no stored `None` at the field (the fallback always skips such
rows), and no table defaults (the fallback materializes defaults the
index never sees).  Result order may still differ. -/
theorem query_index_fallback_equiv (db : DBState) (t : TableCfg)
    (idx : IdxState) (results : List String) (F : String) (pf : PyFunc)
    (compare : Option Val) (out1 out2 : List String)
    (hdfs : t.defaults = none)
    (hfresh : ∀ r ∈ results, ∀ p ∈ idx.bucketOf F,
        (r ∈ p.2 ↔ (db.rawGet (t.name, r)).lookup F = some p.1))
    (hcover : ∀ r ∈ results,
        ((db.rawGet (t.name, r)).lookup F).isSome = true →
          ∃ p ∈ idx.bucketOf F,
            (db.rawGet (t.name, r)).lookup F = some p.1)
    (hnone : ∀ r ∈ results,
        (db.rawGet (t.name, r)).lookup F ≠ some Val.vnone)
    (h1 : queryQuery db t idx results (.fstr F) pf none compare none
            = .ok out1)
    (h2 : queryQuery db t ⟨[], []⟩ results (.fstr F) pf none compare none
            = .ok out2) :
    ∀ r, r ∈ out1 ↔ r ∈ out2 := by
  have hp : ∀ key, fallbackPred db t (.fstr F) pf none compare key
      = .ok (fallbackPure db t.name F pf compare key) :=
    fun key => fallbackPred_no_defaults db t F pf compare key hdfs
  have hfb : fallbackAll (fallbackPred db t (.fstr F) pf none compare)
      results
      = .ok (results.filter (fallbackPure db t.name F pf compare)) :=
    fallbackAll_pure _ _ hp results
  have h2fall : queryQuery db t ⟨[], []⟩ results (.fstr F) pf none compare
      none = fallbackAll (fallbackPred db t (.fstr F) pf none compare)
        results := by
    unfold queryQuery
    simp [countTruthy]
  rw [h2fall, hfb] at h2
  injection h2 with h2'
  by_cases hcond : F ∈ idx.index_keys ∧
      (idx.bucketOf F).length < results.length
  · have h1fast : queryQuery db t idx results (.fstr F) pf none compare
        none = .ok (queryFastSet (idx.bucketOf F) pf compare results) := by
      unfold queryQuery
      simp [hcond, countTruthy]
    rw [h1fast] at h1
    injection h1 with h1'
    subst h1' h2'
    intro r
    unfold queryFastSet
    rw [List.mem_filter, List.mem_filter, mem_unionMatching]
    simp only [List.not_mem_nil, false_or, decide_eq_true_eq]
    constructor
    · rintro ⟨⟨p, hpfi, hcp, hrp⟩, hrres⟩
      refine ⟨hrres, ?_⟩
      have hlook := (hfresh r hrres p hpfi).1 hrp
      have hvne : p.1 ≠ Val.vnone := fun he => hnone r hrres (he ▸ hlook)
      rw [fallbackPure_of_lookup db t.name F pf compare r p.1 hlook hvne]
      exact hcp
    · rintro ⟨hrres, hpure⟩
      refine ⟨?_, hrres⟩
      cases hlook : (db.rawGet (t.name, r)).lookup F with
      | none =>
        unfold fallbackPure at hpure
        rw [hlook] at hpure
        simp at hpure
      | some v =>
        have hvne : v ≠ Val.vnone := by
          intro he
          subst he
          unfold fallbackPure at hpure
          rw [hlook] at hpure
          simp at hpure
        rw [fallbackPure_of_lookup db t.name F pf compare r v hlook hvne]
          at hpure
        obtain ⟨p, hpfi, hpv⟩ := hcover r hrres (by simp [hlook])
        have hrp : r ∈ p.2 := (hfresh r hrres p hpfi).2 hpv
        have hp1 : p.1 = v := by
          rw [hlook] at hpv
          exact (Option.some_inj.mp hpv).symm
        exact ⟨p, hpfi, by rw [hp1]; exact hpure, hrp⟩
  · have h1fall : queryQuery db t idx results (.fstr F) pf none compare
        none = fallbackAll (fallbackPred db t (.fstr F) pf none compare)
          results := by
      unfold queryQuery
      simp [hcond, countTruthy]
    rw [h1fall, hfb] at h1
    injection h1 with h1'
    subst h1' h2'
    intro r
    exact Iff.rfl

/-- Witness for C1's amended theorem on the concrete fresh index of
`qDb`: without a checktype the two paths return the same set
`{r1, r2, r3}` — in different orders, as the claim allows. -/
theorem query_index_fallback_equiv_witness :
    (qTab.defaults = none) ∧
    (queryQuery qDb qTab qIdx ["r1", "r2", "r3"] (.fstr "f")
        ⟨fun _ => true, fun _ _ => true⟩ none none none
      = .ok ["r1", "r3", "r2"]) ∧
    (queryQuery qDb qTab ⟨[], []⟩ ["r1", "r2", "r3"] (.fstr "f")
        ⟨fun _ => true, fun _ _ => true⟩ none none none
      = .ok ["r1", "r2", "r3"]) ∧
    (∀ r, r ∈ ["r1", "r3", "r2"] ↔ r ∈ ["r1", "r2", "r3"]) :=
  ⟨rfl, by decide, by decide,
    query_index_fallback_equiv qDb qTab qIdx ["r1", "r2", "r3"] "f"
      ⟨fun _ => true, fun _ _ => true⟩ none ["r1", "r3", "r2"]
      ["r1", "r2", "r3"] rfl (by decide) (by decide) (by decide)
      (by decide) (by decide)⟩

/-- C10: a falsy `compare` argument (such as `0`, `""` or `None`) makes
`query` call the predicate with a single argument on both the index fast
path and the fallback scan, producing exactly the result of supplying no
compare argument at all; and a `count` of 0 is likewise falsy and imposes
no result cap. -/
theorem query_falsy_compare_and_zero_count (db : DBState) (t : TableCfg)
    (idx : IdxState) (results : List String) (field : QField)
    (pf : PyFunc) (checktype : Option TypeTag) :
    (∀ (c : Option Val) (count : Option Nat), optTruthy c = false →
      queryQuery db t idx results field pf checktype c count
        = queryQuery db t idx results field pf checktype none count) ∧
    (∀ (compare : Option Val),
      queryQuery db t idx results field pf checktype compare (some 0)
        = queryQuery db t idx results field pf checktype compare none) := by
  constructor
  · intro c count hc
    have hcf : callPred pf c = callPred pf none := by
      funext v
      unfold callPred
      rw [hc]
      rfl
    have hpf : fallbackPred db t field pf checktype c
        = fallbackPred db t field pf checktype none := by
      funext key
      unfold fallbackPred
      cases recGet t.defaults (db.rawGet (t.name, key)) field with
      | error e => rfl
      | ok ov =>
        cases ov with
        | none => rfl
        | some v =>
          cases v with
          | vnone => rfl
          | vbool b => rw [hcf]
          | vint n => rw [hcf]
          | vstr s => rw [hcf]
          | vdict d => rw [hcf]
    unfold queryQuery queryFastSet
    simp only [hpf, hcf]
  · intro compare
    have hct0 : countTruthy (some 0) = false := rfl
    have hctn : countTruthy none = false := rfl
    unfold queryQuery
    simp only [hct0, hctn, Bool.false_eq_true, if_false]

/-- Witness for C10 at the concrete falsy arguments `compare = 0` and
`count = 0` over a one-row store. -/
theorem query_falsy_compare_and_zero_count_witness :
    (optTruthy (some (Val.vint 0)) = false) ∧
    (queryQuery ⟨[], [(("t", "r1"), ValDict.ofList [("f", Val.vint 1)])],
        true⟩ ⟨"t", none, false⟩ ⟨[], []⟩ ["r1"] (.fstr "f")
        ⟨fun v => v == Val.vint 1, fun v c => v == c⟩ none
        (some (Val.vint 0)) none
      = queryQuery ⟨[], [(("t", "r1"), ValDict.ofList [("f", Val.vint 1)])],
        true⟩ ⟨"t", none, false⟩ ⟨[], []⟩ ["r1"] (.fstr "f")
        ⟨fun v => v == Val.vint 1, fun v c => v == c⟩ none none none) ∧
    (queryQuery ⟨[], [(("t", "r1"), ValDict.ofList [("f", Val.vint 1)])],
        true⟩ ⟨"t", none, false⟩ ⟨[], []⟩ ["r1"] (.fstr "f")
        ⟨fun v => v == Val.vint 1, fun v c => v == c⟩ none none (some 0)
      = queryQuery ⟨[], [(("t", "r1"), ValDict.ofList [("f", Val.vint 1)])],
        true⟩ ⟨"t", none, false⟩ ⟨[], []⟩ ["r1"] (.fstr "f")
        ⟨fun v => v == Val.vint 1, fun v c => v == c⟩ none none none) :=
  ⟨rfl,
    (query_falsy_compare_and_zero_count
      ⟨[], [(("t", "r1"), ValDict.ofList [("f", Val.vint 1)])], true⟩
      ⟨"t", none, false⟩ ⟨[], []⟩ ["r1"] (.fstr "f")
      ⟨fun v => v == Val.vint 1, fun v c => v == c⟩ none).1
      (some (Val.vint 0)) none rfl,
    (query_falsy_compare_and_zero_count
      ⟨[], [(("t", "r1"), ValDict.ofList [("f", Val.vint 1)])], true⟩
      ⟨"t", none, false⟩ ⟨[], []⟩ ["r1"] (.fstr "f")
      ⟨fun v => v == Val.vint 1, fun v c => v == c⟩ none).2 none⟩

end Pyasdb


